import Mathlib

/-!
Verification of the customer-ledger application (src/app.py) against its
specification.  The Python source is shallowly embedded: SQLite tables become
Lean lists, SQL queries become filters/sorts over those lists, and route
handlers become pure functions on an explicit `Store` state.  REAL (float)
amounts are modelled as rationals `ℚ`; float rounding is outside the spec's
scope (precision beyond two decimals is an explicit non-goal).
-/

namespace CustomerLedger

/-- Whitespace test matching the characters stripped by Python `str.strip()`
(ASCII whitespace; exotic unicode space classes are not used by the app). -/
def isSpaceChar (c : Char) : Bool :=
  c = ' ' ∨ c = '\t' ∨ c = '\n' ∨ c = '\r' ∨ c = '\x0b' ∨ c = '\x0c'

/-- Drop leading whitespace characters from a character list. -/
def dropLeading : List Char → List Char
  | [] => []
  | c :: cs => if isSpaceChar c then dropLeading cs else c :: cs

/-- Python `str.strip()`: remove leading and trailing whitespace. -/
def pyStrip (s : String) : String :=
  ⟨(dropLeading ((dropLeading s.data).reverse)).reverse⟩

/-- Python `s or None` on an already-computed string: empty becomes absent. -/
def strToOpt (s : String) : Option String :=
  if s = "" then none else some s

/-- A row of the `transactions` table.  The AUTOINCREMENT `id` column is never
read by any of the operations under verification and is omitted.  `type` is a
Lean keyword, so the field keeps the name `ttype` used by the Python source
for the same value. -/
structure Txn where
  customer_id : Int
  amount : ℚ
  ttype : String
  note : Option String
  created_at : String
deriving Repr, DecidableEq

/-- A row of the `customers` table. -/
structure Customer where
  id : Int
  name : String
  phone : Option String
deriving Repr, DecidableEq

/-- The database state seen by the route handlers: the two tables plus the
AUTOINCREMENT counter for `customers.id`. -/
structure Store where
  customers : List Customer
  txns : List Txn
  nextCustomerId : Int
deriving Repr, DecidableEq

/-- Embedding of `compute_balance(db, customer_id)`: select this customer's
transactions, then add debit amounts and subtract every other amount. -/
def compute_balance (txns : List Txn) (customer_id : Int) : ℚ :=
  (txns.filter (fun t => t.customer_id = customer_id)).foldl
    (fun total t => if t.ttype = "debit" then total + t.amount else total - t.amount) 0

/-- Signed contribution of one transaction to its customer's balance, as in
the loop body of `compute_balance`. -/
def txnSigned (t : Txn) : ℚ :=
  if t.ttype = "debit" then t.amount else -t.amount

/-- Sum of the stored debit magnitudes of one customer. -/
def debitSum (txns : List Txn) (cid : Int) : ℚ :=
  ((txns.filter (fun t => t.customer_id = cid ∧ t.ttype = "debit")).map Txn.amount).sum

/-- Sum of the stored credit magnitudes of one customer. -/
def creditSum (txns : List Txn) (cid : Int) : ℚ :=
  ((txns.filter (fun t => t.customer_id = cid ∧ t.ttype = "credit")).map Txn.amount).sum

/-- Embedding of `DELETE FROM transactions WHERE customer_id = ?` followed by
`DELETE FROM customers WHERE id = ?` in `delete_customer`. -/
def delete_customer (st : Store) (cust_id : Int) : Store :=
  { st with txns := st.txns.filter (fun t => ¬ t.customer_id = cust_id),
            customers := st.customers.filter (fun c => ¬ c.id = cust_id) }

/-- Sorting by `created_at DESC` (lexicographic on the ISO-8601 strings), as
in the transaction-history query of `customer_detail`. -/
def sortByCreatedDesc (l : List Txn) : List Txn :=
  l.insertionSort (fun a b => b.created_at ≤ a.created_at)

/-- Embedding of the per-customer transaction listing
(`SELECT ... FROM transactions WHERE customer_id = ? ORDER BY created_at DESC`). -/
def listTransactions (st : Store) (cid : Int) : List Txn :=
  sortByCreatedDesc (st.txns.filter (fun t => t.customer_id = cid))

/-- Embedding of `add_transaction` (route `/customer/<id>/add_txn`) after the
amount has been parsed: coerce an unrecognized type to `debit`, strip the
note, store the absolute value of the amount. -/
def add_transaction (st : Store) (cust_id : Int) (amount : ℚ)
    (ttype0 : String) (note0 : String) (now : String) : Store :=
  { st with txns := st.txns ++
      [{ customer_id := cust_id, amount := |amount|,
         ttype := if ttype0 = "debit" ∨ ttype0 = "credit" then ttype0 else "debit",
         note := strToOpt (pyStrip note0), created_at := now }] }

/-- ASCII case folding used by SQLite's default `LIKE`: `A`-`Z` fold to
lowercase, all other characters compare verbatim. -/
def likeFold (c : Char) : Char :=
  if 'A' ≤ c ∧ c ≤ 'Z' then Char.ofNat (c.toNat + 32) else c

/-- SQLite `LIKE` pattern matching (no ESCAPE clause): `%` matches any
sequence, `_` any single character, other characters match up to ASCII case
folding. -/
def likeMatchAux : List Char → List Char → Bool
  | [], t => t.isEmpty
  | p :: ps, t =>
    if p = '%' then
      likeMatchAux ps t ||
        (match t with
         | [] => false
         | _ :: ts => likeMatchAux (p :: ps) ts)
    else
      match t with
      | [] => false
      | c :: ts =>
        if p = '_' then likeMatchAux ps ts
        else (likeFold p = likeFold c) && likeMatchAux ps ts
termination_by p t => (t.length, p.length)

/-- String-level SQLite `LIKE`. -/
def likeMatch (pat s : String) : Bool :=
  likeMatchAux pat.data s.data

/-- The search predicate of the dashboard query
(`name LIKE '%q%' OR phone LIKE '%q%'`); a NULL phone never matches. -/
def matchesQuery (q : String) (c : Customer) : Bool :=
  likeMatch ("%" ++ q ++ "%") c.name ||
    (match c.phone with
     | some p => likeMatch ("%" ++ q ++ "%") p
     | none => false)

/-- Sorting customers by `id DESC`, as in `ORDER BY id DESC`. -/
def sortByIdDesc (l : List Customer) : List Customer :=
  l.insertionSort (fun a b => b.id ≤ a.id)

/-- Embedding of the dashboard listing (route `/`): strip the search string;
when it is non-empty filter by the `LIKE` predicate; order by id descending.
The per-row balance shown by the page is `compute_balance`, modelled
separately. -/
def index (st : Store) (q0 : String) : List Customer :=
  sortByIdDesc (if pyStrip q0 = "" then st.customers
    else st.customers.filter (fun c => matchesQuery (pyStrip q0) c))

/-- Value of a named CSV field of one row, as produced by `csv.DictReader`:
keys are the header fields in order; a row shorter than the header yields
`none` (Python `None`) for the trailing fields; values beyond the header are
ignored.  Duplicate header names do not occur in the verified scenarios. -/
def getv : List String → List String → String → Option String
  | [], _, _ => none
  | h :: hs, [], key => if h = key then none else getv hs [] key
  | h :: hs, v :: vs, key => if h = key then some v else getv hs vs key

/-- Python `x or default` for an optional CSV field: missing (`None`) and
empty both yield the default. -/
def optOr (o : Option String) (d : String) : String :=
  match o with
  | none => d
  | some s => if s = "" then d else s

/-- Numeric value of a non-empty all-digit character list. -/
def digitsVal : List Char → Option Nat
  | [] => none
  | [c] => if c.isDigit then some (c.toNat - 48) else none
  | c :: cs =>
    if c.isDigit then
      match digitsVal cs with
      | some n => some ((c.toNat - 48) * 10 ^ cs.length + n)
      | none => none
    else none

/-- Python `int(s)` on a string: optional surrounding whitespace, optional
sign, decimal digits; anything else raises (here: `none`).  Digit-group
underscores are not used by the verified scenarios and are not modelled. -/
def pyInt (s : String) : Option Int :=
  match (pyStrip s).data with
  | '+' :: ds => (digitsVal ds).map Int.ofNat
  | '-' :: ds => (digitsVal ds).map (fun n => -(n : Int))
  | ds => (digitsVal ds).map Int.ofNat

/-- Value of an unsigned decimal literal: digits with an optional point. -/
def pyFloatCore (ds : List Char) : Option ℚ :=
  match ds.takeWhile (fun c => ¬ c = '.'), ds.dropWhile (fun c => ¬ c = '.') with
  | ipart, [] => (digitsVal ipart).map (fun n => (n : ℚ))
  | ipart, _ :: frac =>
    if frac.contains '.' then none
    else
      match ipart, frac with
      | [], [] => none
      | [], f => (digitsVal f).map (fun n => (n : ℚ) / 10 ^ f.length)
      | i, [] => (digitsVal i).map (fun n => (n : ℚ))
      | i, f =>
        match digitsVal i, digitsVal f with
        | some a, some b => some ((a : ℚ) + (b : ℚ) / 10 ^ f.length)
        | _, _ => none

/-- Python `float(s)` on a string: optional surrounding whitespace, optional
sign, decimal digits with an optional point.  Exponent/`inf`/`nan` forms are
not used by the verified scenarios and are not modelled. -/
def pyFloat (s : String) : Option ℚ :=
  match (pyStrip s).data with
  | '+' :: ds => pyFloatCore ds
  | '-' :: ds => (pyFloatCore ds).map (fun q => -q)
  | ds => pyFloatCore ds

/-- Parsing of the `customer_id` field: `int(row.get('customer_id'))` — a
missing field (Python `None`) raises, anything non-integer raises. -/
def parseCid (o : Option String) : Option Int :=
  match o with
  | none => none
  | some s => pyInt s

/-- Parsing of the `amount` field: `float(row.get('amount') or 0)` — missing
or empty defaults to `0`, otherwise the text must parse as a number. -/
def parseAmt (o : Option String) : Option ℚ :=
  match o with
  | none => some 0
  | some s => if s = "" then some 0 else pyFloat s

/-- Insertion into `customers` with an AUTOINCREMENT id. -/
def insertCustomer (st : Store) (name : String) (phone : Option String) : Store :=
  { st with customers := st.customers ++ [{ id := st.nextCustomerId, name := name, phone := phone }],
            nextCustomerId := st.nextCustomerId + 1 }

/-- The row loop of `import_csv`.  `csv.DictReader` gives every row the
header's keys, so the two `in row` membership tests are header-membership
tests, identical for every row of the file.  A customer row with a blank
(stripped) name is skipped; a transaction row whose `customer_id` or `amount`
fails to parse is skipped by the `except: continue`. -/
def importRows (header : List String) (now : String) :
    List (List String) → Store → Nat → Store × Nat
  | [], st, added => (st, added)
  | row :: rest, st, added =>
    if header.contains "name" then
      if pyStrip ((getv header row "name").getD "") = "" then
        importRows header now rest st added
      else
        importRows header now rest
          (insertCustomer st (pyStrip ((getv header row "name").getD ""))
            (strToOpt (pyStrip ((getv header row "phone").getD ""))))
          (added + 1)
    else if header.contains "customer_id" && header.contains "amount" then
      match parseCid (getv header row "customer_id"), parseAmt (getv header row "amount") with
      | some cid, some amt =>
        importRows header now rest
          { st with txns := st.txns ++
              [{ customer_id := cid, amount := |amt|,
                 ttype := optOr (getv header row "type") "debit",
                 note := strToOpt ((getv header row "note").getD ""),
                 created_at := optOr (getv header row "created_at") now }] }
          (added + 1)
      | _, _ => importRows header now rest st added
    else importRows header now rest st added

/-- Embedding of the `/import` route body: run the row loop over the parsed
file and return the new state with the reported count of imported rows. -/
def import_csv (header : List String) (rows : List (List String)) (now : String)
    (st : Store) : Store × Nat :=
  importRows header now rows st 0

/-- Formatting `'%.2f' % x` (two decimal digits).  Exact half-to-even float
behaviour is irrelevant here: the formatted balance column is never read back. -/
def fmt2 (q : ℚ) : String :=
  let n : Int := ⌊q * 100 + 1 / 2⌋
  let m := n.natAbs
  (if n < 0 then "-" else "") ++ toString (m / 100) ++ "." ++
    (if m % 100 < 10 then "0" else "") ++ toString (m % 100)

/-- Embedding of the customers branch of `export_csv`: the header row and one
data row per customer in `ORDER BY id DESC` order, with the phone emitted as
the empty string when absent and the derived balance formatted to two
decimals.  (The transactions branch of the route is not needed by any claim.) -/
def export_customers (st : Store) : List String × List (List String) :=
  (["id", "name", "phone", "balance"],
   (sortByIdDesc st.customers).map (fun c =>
     [toString c.id, c.name, c.phone.getD "", fmt2 (compute_balance st.txns c.id)]))

/-- The identity of a customer as reproduced by a CSV round trip. -/
def custKey (c : Customer) : String × Option String :=
  (c.name, c.phone)

/-- Schema-level state for `init_db`: whether each table exists, the column
list of `customers`, and the data visible to the migration (`SELECT id,
amount FROM customers`). -/
structure LegacyDb where
  customersTableExists : Bool
  customerCols : List String
  customerRows : List (Int × Option ℚ)
  transactionsTableExists : Bool
  txns : List Txn
deriving Repr, DecidableEq

/-- The migration loop of `init_db`: each non-null non-zero legacy amount
becomes one transaction (`debit` if positive, else `credit`, magnitude the
absolute value, note `migrated`). -/
def migrateAmounts (rows : List (Int × Option ℚ)) (now : String) : List Txn :=
  rows.filterMap (fun r =>
    match r.2 with
    | none => none
    | some a =>
      if a = 0 then none
      else some { customer_id := r.1, amount := |a|,
                  ttype := if 0 < a then "debit" else "credit",
                  note := some "migrated", created_at := now })

/-- Embedding of `init_db`: if `customers` exists, add a missing `phone`
column; if an `amount` column is (still) present, ensure `transactions`
exists, run the migration loop and return early; otherwise fall through to
the `CREATE TABLE IF NOT EXISTS` statements. -/
def init_db (db : LegacyDb) (now : String) : LegacyDb :=
  if db.customersTableExists then
    let db1 := if db.customerCols.contains "phone" then db
               else { db with customerCols := db.customerCols ++ ["phone"] }
    if db1.customerCols.contains "amount" then
      { db1 with transactionsTableExists := true,
                 txns := db1.txns ++ migrateAmounts db1.customerRows now }
    else
      { db1 with transactionsTableExists := true }
  else
    { db with customersTableExists := true,
              customerCols := ["id", "name", "phone"],
              customerRows := [],
              transactionsTableExists := true }

lemma foldl_signed (l : List Txn) (a : ℚ) :
    l.foldl (fun total t => if t.ttype = "debit" then total + t.amount else total - t.amount) a
      = a + (l.map txnSigned).sum := by
  induction l generalizing a with
  | nil => simp
  | cons t l ih =>
    simp only [List.foldl_cons, List.map_cons, List.sum_cons, ih, txnSigned]
    by_cases h : t.ttype = "debit" <;> simp [h] <;> ring

lemma compute_balance_eq_sum (txns : List Txn) (cid : Int) :
    compute_balance txns cid
      = ((txns.filter (fun t => t.customer_id = cid)).map txnSigned).sum := by
  unfold compute_balance
  rw [foldl_signed, zero_add]

lemma balance_split (txns : List Txn) (cid : Int)
    (h : ∀ t ∈ txns, t.ttype = "debit" ∨ t.ttype = "credit") :
    compute_balance txns cid = debitSum txns cid - creditSum txns cid := by
  induction txns with
  | nil => simp [compute_balance_eq_sum, debitSum, creditSum]
  | cons t rest ih =>
    have ht := h t (List.mem_cons_self t rest)
    have ihr := ih (fun x hx => h x (List.mem_cons_of_mem t hx))
    simp only [compute_balance_eq_sum, debitSum, creditSum, List.filter_cons] at ihr ⊢
    by_cases hc : t.customer_id = cid
    · rcases ht with hd | hcr
      · simp [hc, hd, txnSigned, ihr]; ring
      · have hnd : ¬ t.ttype = "debit" := by rw [hcr]; decide
        simp [hc, hcr, hnd, txnSigned, ihr]; ring
    · simp [hc, ihr]

/-- C1: `compute_balance` returns `0` for a customer with no transactions, is
invariant under permutation of the stored transaction list (insertion order),
and on a log whose types are all `debit`/`credit` equals the sum of the debit
amounts minus the sum of the credit amounts of that customer. -/
theorem computeBalance_spec (txns : List Txn) (cid : Int) :
    (txns.filter (fun t => t.customer_id = cid) = [] → compute_balance txns cid = 0)
    ∧ (∀ txns2, txns.Perm txns2 → compute_balance txns cid = compute_balance txns2 cid)
    ∧ ((∀ t ∈ txns, t.ttype = "debit" ∨ t.ttype = "credit") →
        compute_balance txns cid = debitSum txns cid - creditSum txns cid) := by
  refine ⟨fun h => ?_, fun txns2 h => ?_, fun h => balance_split txns cid h⟩
  · rw [compute_balance_eq_sum, h]; simp
  · rw [compute_balance_eq_sum, compute_balance_eq_sum]
    exact ((h.filter _).map txnSigned).sum_eq

/-- Witness for C1 at a concrete two-transaction log. -/
theorem computeBalance_spec_witness :
    compute_balance ([] : List Txn) 1 = 0
    ∧ compute_balance
        [⟨1, 100, "debit", none, "t1"⟩, ⟨1, 30, "credit", none, "t2"⟩] 1
      = compute_balance
        [⟨1, 30, "credit", none, "t2"⟩, ⟨1, 100, "debit", none, "t1"⟩] 1
    ∧ compute_balance
        [⟨1, 100, "debit", none, "t1"⟩, ⟨1, 30, "credit", none, "t2"⟩] 1
      = debitSum [⟨1, 100, "debit", none, "t1"⟩, ⟨1, 30, "credit", none, "t2"⟩] 1
        - creditSum [⟨1, 100, "debit", none, "t1"⟩, ⟨1, 30, "credit", none, "t2"⟩] 1 :=
  ⟨(computeBalance_spec [] 1).1 (by decide),
   (computeBalance_spec _ 1).2.1 _ (List.Perm.swap _ _ _),
   (computeBalance_spec _ 1).2.2 (by decide)⟩

/-- One transaction-mode import step that parses successfully, characterized. -/
lemma importRows_txn_single (header row : List String) (st : Store) (a : Nat)
    (now : String) (cid : Int) (amt : ℚ)
    (h1 : header.contains "name" = false)
    (h2 : header.contains "customer_id" = true)
    (h3 : header.contains "amount" = true)
    (h4 : parseCid (getv header row "customer_id") = some cid)
    (h5 : parseAmt (getv header row "amount") = some amt) :
    importRows header now [row] st a
      = ({ st with txns := st.txns ++
            [{ customer_id := cid, amount := |amt|,
               ttype := optOr (getv header row "type") "debit",
               note := strToOpt ((getv header row "note").getD ""),
               created_at := optOr (getv header row "created_at") now }] }, a + 1) := by
  have hn : ¬ ("name" ∈ header) := by simpa using h1
  have hcid : "customer_id" ∈ header := by simpa using h2
  have hamt : "amount" ∈ header := by simpa using h3
  simp [importRows, hn, hcid, hamt, h4, h5]

/-- C10: in `compute_balance` every transaction whose stored type is not
exactly `debit` is subtracted from the balance, and CSV import stores a
non-empty `type` field verbatim, so an unrecognized imported type behaves as
a credit. -/
theorem nonDebit_behaves_as_credit :
    (∀ (tx : Txn) (txns : List Txn) (cid : Int), tx.customer_id = cid →
        ¬ tx.ttype = "debit" →
        compute_balance (tx :: txns) cid = compute_balance txns cid - tx.amount)
    ∧ (∀ (header row : List String) (st : Store) (a : Nat) (now : String)
          (cid : Int) (amt : ℚ) (s : String),
        header.contains "name" = false → header.contains "customer_id" = true →
        header.contains "amount" = true →
        parseCid (getv header row "customer_id") = some cid →
        parseAmt (getv header row "amount") = some amt →
        getv header row "type" = some s → ¬ s = "" →
        (importRows header now [row] st a).1.txns.map Txn.ttype
          = st.txns.map Txn.ttype ++ [s]) := by
  constructor
  · intro tx txns cid hc hnd
    rw [compute_balance_eq_sum, compute_balance_eq_sum, List.filter_cons]
    simp [hc, txnSigned, hnd]
    ring
  · intro header row st a now cid amt s h1 h2 h3 h4 h5 h6 h7
    rw [importRows_txn_single header row st a now cid amt h1 h2 h3 h4 h5]
    simp [h6, optOr, h7]

/-- Witness for C10: a type `foo` transaction of amount 10 lowers the balance
by 10, and importing a row with type `foo` stores `foo` verbatim. -/
theorem nonDebit_behaves_as_credit_witness :
    compute_balance [⟨1, 10, "foo", none, "t1"⟩] 1 = compute_balance [] 1 - 10
    ∧ (importRows ["customer_id", "amount", "type"] "T" [["1", "10", "foo"]]
        ⟨[], [], 1⟩ 0).1.txns.map Txn.ttype = ([] : List Txn).map Txn.ttype ++ ["foo"] :=
  ⟨nonDebit_behaves_as_credit.1 ⟨1, 10, "foo", none, "t1"⟩ [] 1 (by decide) (by decide),
   nonDebit_behaves_as_credit.2 ["customer_id", "amount", "type"] ["1", "10", "foo"]
     ⟨[], [], 1⟩ 0 "T" 1 10 "foo" (by decide) (by decide) (by decide)
     (by decide) (by decide) (by decide) (by decide)⟩

/-- C5: both write paths store the absolute value of the input amount, and
appending an amount `-50` transaction of type `credit` decreases the
customer's balance by 50. -/
theorem amount_abs_spec :
    (∀ (st : Store) (cid : Int) (amount : ℚ) (t0 note now : String),
        (add_transaction st cid amount t0 note now).txns.map Txn.amount
          = st.txns.map Txn.amount ++ [|amount|])
    ∧ (∀ (header row : List String) (st : Store) (a : Nat) (now : String)
          (cid : Int) (amt : ℚ),
        header.contains "name" = false → header.contains "customer_id" = true →
        header.contains "amount" = true →
        parseCid (getv header row "customer_id") = some cid →
        parseAmt (getv header row "amount") = some amt →
        (importRows header now [row] st a).1.txns.map Txn.amount
          = st.txns.map Txn.amount ++ [|amt|])
    ∧ (∀ (st : Store) (cid : Int) (note now : String),
        compute_balance ((add_transaction st cid (-50) "credit" note now).txns) cid
          = compute_balance st.txns cid - 50) := by
  refine ⟨?_, ?_, ?_⟩
  · intro st cid amount t0 note now
    simp [add_transaction]
  · intro header row st a now cid amt h1 h2 h3 h4 h5
    rw [importRows_txn_single header row st a now cid amt h1 h2 h3 h4 h5]
    simp
  · intro st cid note now
    simp only [add_transaction]
    rw [compute_balance_eq_sum, List.filter_append, List.map_append, List.sum_append,
      ← compute_balance_eq_sum]
    have h50 : |(-50 : ℚ)| = 50 := by norm_num
    simp [txnSigned, h50]
    ring

/-- Witness for C5: a direct add and an imported row, both with amount −50. -/
theorem amount_abs_spec_witness :
    (add_transaction ⟨[], [], 1⟩ 1 (-50) "credit" "" "T").txns.map Txn.amount
      = ([] : List Txn).map Txn.amount ++ [|(-50 : ℚ)|]
    ∧ (importRows ["customer_id", "amount"] "T" [["1", "-50"]]
          ⟨[], [], 1⟩ 0).1.txns.map Txn.amount
      = ([] : List Txn).map Txn.amount ++ [|(-50 : ℚ)|]
    ∧ compute_balance ((add_transaction ⟨[], [], 1⟩ 1 (-50) "credit" "" "T").txns) 1
      = compute_balance ([] : List Txn) 1 - 50 :=
  ⟨amount_abs_spec.1 ⟨[], [], 1⟩ 1 (-50) "credit" "" "T",
   amount_abs_spec.2.1 ["customer_id", "amount"] ["1", "-50"] ⟨[], [], 1⟩ 0 "T" 1 (-50)
     (by decide) (by decide) (by decide) (by decide) (by decide),
   amount_abs_spec.2.2 ⟨[], [], 1⟩ 1 "" "T"⟩

/-- C6: deleting a customer empties that customer's transaction listing,
keeps exactly the customers and transactions not referencing the deleted id,
is the identity when nothing references the id, and is idempotent. -/
theorem delete_customer_spec (st : Store) (cid : Int) :
    listTransactions (delete_customer st cid) cid = []
    ∧ (∀ c, c ∈ (delete_customer st cid).customers ↔ c ∈ st.customers ∧ ¬ c.id = cid)
    ∧ (∀ t, t ∈ (delete_customer st cid).txns ↔ t ∈ st.txns ∧ ¬ t.customer_id = cid)
    ∧ ((∀ c ∈ st.customers, ¬ c.id = cid) → (∀ t ∈ st.txns, ¬ t.customer_id = cid) →
        delete_customer st cid = st)
    ∧ delete_customer (delete_customer st cid) cid = delete_customer st cid := by
  refine ⟨?_, ?_, ?_, ?_, ?_⟩
  · have h : (st.txns.filter (fun t => ¬ t.customer_id = cid)).filter
        (fun t => t.customer_id = cid) = [] := by
      rw [List.filter_eq_nil_iff]
      intro t ht
      have := (List.mem_filter.mp ht).2
      simp at this ⊢
      exact this
    simp [listTransactions, delete_customer, h, sortByCreatedDesc]
  · intro c
    simp [delete_customer, List.mem_filter]
  · intro t
    simp [delete_customer, List.mem_filter]
  · intro hc ht
    cases st with
    | mk customers txns nextId =>
      simp only [delete_customer, Store.mk.injEq]
      refine ⟨?_, ?_, trivial⟩
      · rw [List.filter_eq_self]
        intro c hcm
        simpa using hc c hcm
      · rw [List.filter_eq_self]
        intro t htm
        simpa using ht t htm
  · simp [delete_customer, List.filter_filter]

/-- Witness for C6: deleting an id referenced by nothing changes nothing. -/
theorem delete_customer_spec_witness :
    delete_customer ⟨[⟨1, "a", none⟩], [⟨1, 5, "debit", none, "t"⟩], 2⟩ 7
      = ⟨[⟨1, "a", none⟩], [⟨1, 5, "debit", none, "t"⟩], 2⟩ :=
  (delete_customer_spec ⟨[⟨1, "a", none⟩], [⟨1, 5, "debit", none, "t"⟩], 2⟩ 7).2.2.2.1
    (by decide) (by decide)

/-- Counterexample to C3: importing a transaction row whose type field is
`foo` stores `foo` unchanged — the import path never coerces to `debit`. -/
theorem import_type_not_coerced_cex :
    (import_csv ["customer_id", "amount", "type"] [["1", "10", "foo"]] "T"
        ⟨[], [], 1⟩).1.txns.map Txn.ttype = ["foo"]
    ∧ ¬ "foo" = "debit" ∧ ¬ "foo" = "credit" := by
  decide

/-- C3 as amended: the direct add-transaction path coerces any type outside
`debit`/`credit` to `debit`; the CSV import path only defaults a missing or
empty type field to `debit` and stores any other value verbatim. -/
theorem type_coercion_amended :
    (∀ (st : Store) (cid : Int) (amount : ℚ) (t0 note now : String),
        ¬ (t0 = "debit" ∨ t0 = "credit") →
        (add_transaction st cid amount t0 note now).txns.map Txn.ttype
          = st.txns.map Txn.ttype ++ ["debit"])
    ∧ (∀ (header row : List String) (st : Store) (a : Nat) (now : String)
          (cid : Int) (amt : ℚ),
        header.contains "name" = false → header.contains "customer_id" = true →
        header.contains "amount" = true →
        parseCid (getv header row "customer_id") = some cid →
        parseAmt (getv header row "amount") = some amt →
        ((getv header row "type" = none ∨ getv header row "type" = some "") →
          (importRows header now [row] st a).1.txns.map Txn.ttype
            = st.txns.map Txn.ttype ++ ["debit"])
        ∧ (∀ s, getv header row "type" = some s → ¬ s = "" →
          (importRows header now [row] st a).1.txns.map Txn.ttype
            = st.txns.map Txn.ttype ++ [s])) := by
  constructor
  · intro st cid amount t0 note now h
    simp [add_transaction, h]
  · intro header row st a now cid amt h1 h2 h3 h4 h5
    constructor
    · intro h6
      rw [importRows_txn_single header row st a now cid amt h1 h2 h3 h4 h5]
      rcases h6 with h6 | h6 <;> simp [h6, optOr]
    · intro s h6 h7
      rw [importRows_txn_single header row st a now cid amt h1 h2 h3 h4 h5]
      simp [h6, optOr, h7]

/-- Witness for the amended C3: a direct add with type `foo` stores `debit`;
an imported row with type `bar` stores `bar`. -/
theorem type_coercion_amended_witness :
    (add_transaction ⟨[], [], 1⟩ 1 5 "foo" "" "T").txns.map Txn.ttype
      = ([] : List Txn).map Txn.ttype ++ ["debit"]
    ∧ (importRows ["customer_id", "amount", "type"] "T" [["1", "10", "bar"]]
        ⟨[], [], 1⟩ 0).1.txns.map Txn.ttype
      = ([] : List Txn).map Txn.ttype ++ ["bar"] :=
  ⟨type_coercion_amended.1 ⟨[], [], 1⟩ 1 5 "foo" "" "T" (by decide),
   (type_coercion_amended.2 ["customer_id", "amount", "type"] ["1", "10", "bar"]
     ⟨[], [], 1⟩ 0 "T" 1 10 (by decide) (by decide) (by decide) (by decide)
     (by decide)).2 "bar" (by decide) (by decide)⟩

/-- C2 fails on the code: on an already-migrated schema that still carries
the legacy `amount` column (here one customer with legacy amount 100,
migrated by the first run), a second `init_db` run changes no columns but
inserts a second `migrated` transaction — the migration loop has no
done-marker and re-runs whenever the column is present. -/
theorem init_db_rerun_duplicates :
    (init_db ⟨true, ["id", "name", "amount"], [(1, some 100)], false, []⟩ "t0").txns.length = 1
    ∧ (init_db (init_db ⟨true, ["id", "name", "amount"], [(1, some 100)], false, []⟩ "t0")
        "t1").txns.length = 2
    ∧ (init_db (init_db ⟨true, ["id", "name", "amount"], [(1, some 100)], false, []⟩ "t0")
        "t1").customerCols
      = (init_db ⟨true, ["id", "name", "amount"], [(1, some 100)], false, []⟩ "t0").customerCols := by
  decide

lemma importRows_name_mode (header : List String) (now : String)
    (hb : header.contains "name" = true) :
    ∀ (rows : List (List String)) (st : Store) (a : Nat),
      (importRows header now rows st a).1.txns = st.txns := by
  intro rows
  induction rows with
  | nil =>
    intro st a
    rfl
  | cons row rest ih =>
    intro st a
    simp only [importRows]
    rw [if_pos hb]
    split
    · exact ih st a
    · exact (ih _ _).trans rfl

lemma importRows_txn_mode (header : List String) (now : String)
    (hb : header.contains "name" = false) :
    ∀ (rows : List (List String)) (st : Store) (a : Nat),
      (importRows header now rows st a).1.customers = st.customers := by
  intro rows
  induction rows with
  | nil =>
    intro st a
    rfl
  | cons row rest ih =>
    intro st a
    simp only [importRows]
    rw [if_neg (by simpa using hb)]
    split
    · split
      · exact (ih _ _).trans rfl
      · exact ih st a
    · exact ih st a

lemma importRows_other_mode (header : List String) (now : String)
    (hb : header.contains "name" = false)
    (hca : (header.contains "customer_id" && header.contains "amount") = false) :
    ∀ (rows : List (List String)) (st : Store) (a : Nat),
      importRows header now rows st a = (st, a) := by
  intro rows
  induction rows with
  | nil =>
    intro st a
    rfl
  | cons row rest ih =>
    intro st a
    simp only [importRows]
    rw [if_neg (by simpa using hb), if_neg (by simpa using hca)]
    exact ih st a

/-- C9: row classification is decided by the header alone and applied to
every row: a header with `name` imports no transactions; a header without
`name` but with `customer_id` and `amount` imports no customers; any other
header imports nothing and reports count 0. -/
theorem import_header_classification (header : List String)
    (rows : List (List String)) (now : String) (st : Store) :
    (header.contains "name" = true →
      (import_csv header rows now st).1.txns = st.txns)
    ∧ (header.contains "name" = false →
      (import_csv header rows now st).1.customers = st.customers)
    ∧ (header.contains "name" = false →
      (header.contains "customer_id" && header.contains "amount") = false →
      import_csv header rows now st = (st, 0)) :=
  ⟨fun hb => importRows_name_mode header now hb rows st 0,
   fun hb => importRows_txn_mode header now hb rows st 0,
   fun hb hca => importRows_other_mode header now hb hca rows st 0⟩

/-- Witness for C9 at three concrete headers: a `name` header adds no
transactions, a `customer_id`/`amount` header adds no customers, and an
unrelated header imports nothing. -/
theorem import_header_classification_witness :
    (import_csv ["name"] [["Bob"]] "T" ⟨[], [], 1⟩).1.txns = ([] : List Txn)
    ∧ (import_csv ["customer_id", "amount"] [["1", "10"]] "T"
        ⟨[], [], 1⟩).1.customers = ([] : List Customer)
    ∧ import_csv ["other"] [["x"], ["y"]] "T" ⟨[], [], 1⟩ = (⟨[], [], 1⟩, 0) :=
  ⟨(import_header_classification ["name"] [["Bob"]] "T" ⟨[], [], 1⟩).1 (by decide),
   (import_header_classification ["customer_id", "amount"] [["1", "10"]] "T"
      ⟨[], [], 1⟩).2.1 (by decide),
   (import_header_classification ["other"] [["x"], ["y"]] "T" ⟨[], [], 1⟩).2.2
      (by decide) (by decide)⟩

lemma importRows_skip_bad_txn (header : List String) (now : String)
    (row : List String)
    (h1 : header.contains "name" = false)
    (h2 : header.contains "customer_id" = true)
    (h3 : header.contains "amount" = true)
    (hbad : parseCid (getv header row "customer_id") = none
        ∨ parseAmt (getv header row "amount") = none) :
    ∀ (r1 r2 : List (List String)) (st : Store) (a : Nat),
      importRows header now (r1 ++ row :: r2) st a = importRows header now (r1 ++ r2) st a := by
  intro r1
  induction r1 with
  | nil =>
    intro r2 st a
    simp only [List.nil_append, importRows]
    rw [if_neg (by simpa using h1), if_pos (by simpa using And.intro h2 h3)]
    rcases hbad with hb | hb
    · rw [hb]
    · rcases hc : parseCid (getv header row "customer_id") with _ | cid <;> simp [hc, hb]
  | cons r r1 ih =>
    intro r2 st a
    simp only [List.cons_append, importRows]
    rw [if_neg (by simpa using h1), if_pos (by simpa using And.intro h2 h3),
      if_neg (by simpa using h1), if_pos (by simpa using And.intro h2 h3)]
    rcases hc : parseCid (getv header r "customer_id") with _ | cid
    · simp only [hc]
      exact ih r2 st a
    · rcases ha : parseAmt (getv header r "amount") with _ | amt
      · simp only [hc, ha]
        exact ih r2 st a
      · simp only [hc, ha]
        exact ih r2 _ _

lemma importRows_skip_blank_name (header : List String) (now : String)
    (row : List String)
    (h1 : header.contains "name" = true)
    (hblank : pyStrip ((getv header row "name").getD "") = "") :
    ∀ (r1 r2 : List (List String)) (st : Store) (a : Nat),
      importRows header now (r1 ++ row :: r2) st a = importRows header now (r1 ++ r2) st a := by
  intro r1
  induction r1 with
  | nil =>
    intro r2 st a
    simp only [List.nil_append, importRows]
    rw [if_pos h1, if_pos hblank]
  | cons r r1 ih =>
    intro r2 st a
    simp only [List.cons_append, importRows]
    rw [if_pos h1, if_pos h1]
    split
    · exact ih r2 st a
    · exact ih r2 _ _

lemma importRows_count (header : List String) (now : String) :
    ∀ (rows : List (List String)) (st : Store) (a : Nat),
      (importRows header now rows st a).2 + st.customers.length + st.txns.length
        = a + (importRows header now rows st a).1.customers.length
            + (importRows header now rows st a).1.txns.length := by
  intro rows
  induction rows with
  | nil =>
    intro st a
    simp [importRows]
  | cons row rest ih =>
    intro st a
    simp only [importRows]
    split
    · split
      · have h := ih st a
        omega
      · have h := ih (insertCustomer st (pyStrip ((getv header row "name").getD ""))
          (strToOpt (pyStrip ((getv header row "phone").getD "")))) (a + 1)
        have hc : (insertCustomer st (pyStrip ((getv header row "name").getD ""))
            (strToOpt (pyStrip ((getv header row "phone").getD "")))).customers.length
          = st.customers.length + 1 := by simp [insertCustomer]
        have ht : (insertCustomer st (pyStrip ((getv header row "name").getD ""))
            (strToOpt (pyStrip ((getv header row "phone").getD "")))).txns.length
          = st.txns.length := rfl
        omega
    · split
      · split
        · next cid amt _ _ =>
          have h := ih { st with txns := st.txns ++
              [{ customer_id := cid, amount := |amt|,
                 ttype := optOr (getv header row "type") "debit",
                 note := strToOpt ((getv header row "note").getD ""),
                 created_at := optOr (getv header row "created_at") now }] } (a + 1)
          simp only [List.length_append, List.length_cons, List.length_nil] at h
          omega
        · have h := ih st a
          omega
      · have h := ih st a
        omega

/-- C8: a transaction row whose `customer_id` or `amount` fails to parse, and
a customer row whose stripped name is blank, are skipped without affecting
the rest of the import, and the reported count is exactly the number of
inserted customers plus inserted transactions. -/
theorem import_row_tolerance :
    (∀ (header : List String) (now : String) (row : List String)
        (r1 r2 : List (List String)) (st : Store) (a : Nat),
      header.contains "name" = false → header.contains "customer_id" = true →
      header.contains "amount" = true →
      (parseCid (getv header row "customer_id") = none
        ∨ parseAmt (getv header row "amount") = none) →
      importRows header now (r1 ++ row :: r2) st a = importRows header now (r1 ++ r2) st a)
    ∧ (∀ (header : List String) (now : String) (row : List String)
        (r1 r2 : List (List String)) (st : Store) (a : Nat),
      header.contains "name" = true →
      pyStrip ((getv header row "name").getD "") = "" →
      importRows header now (r1 ++ row :: r2) st a = importRows header now (r1 ++ r2) st a)
    ∧ (∀ (header : List String) (rows : List (List String)) (now : String) (st : Store),
      (import_csv header rows now st).2 + st.customers.length + st.txns.length
        = (import_csv header rows now st).1.customers.length
          + (import_csv header rows now st).1.txns.length) := by
  refine ⟨?_, ?_, ?_⟩
  · intro header now row r1 r2 st a h1 h2 h3 hbad
    exact importRows_skip_bad_txn header now row h1 h2 h3 hbad r1 r2 st a
  · intro header now row r1 r2 st a h1 hblank
    exact importRows_skip_blank_name header now row h1 hblank r1 r2 st a
  · intro header rows now st
    have h := importRows_count header now rows st 0
    simpa [import_csv] using h

/-- Witness for C8: a non-integer `customer_id` row and a blank-name row are
skipped, and a two-row mixed-validity file reports count 1. -/
theorem import_row_tolerance_witness :
    importRows ["customer_id", "amount"] "T" ([] ++ ["abc", "10"] :: [["1", "10"]])
        ⟨[], [], 1⟩ 0
      = importRows ["customer_id", "amount"] "T" ([] ++ [["1", "10"]]) ⟨[], [], 1⟩ 0
    ∧ importRows ["name", "phone"] "T" ([["Bob", "555"]] ++ [" ", "000"] :: [])
        ⟨[], [], 1⟩ 0
      = importRows ["name", "phone"] "T" ([["Bob", "555"]] ++ []) ⟨[], [], 1⟩ 0
    ∧ (import_csv ["name", "phone"] [["Bob", "555"], [" ", "000"]] "T" ⟨[], [], 1⟩).2
        + ([] : List Customer).length + ([] : List Txn).length
      = (import_csv ["name", "phone"] [["Bob", "555"], [" ", "000"]] "T"
          ⟨[], [], 1⟩).1.customers.length
        + (import_csv ["name", "phone"] [["Bob", "555"], [" ", "000"]] "T"
            ⟨[], [], 1⟩).1.txns.length :=
  ⟨import_row_tolerance.1 ["customer_id", "amount"] "T" ["abc", "10"] [] [["1", "10"]]
      ⟨[], [], 1⟩ 0 (by decide) (by decide) (by decide) (Or.inl (by decide)),
   import_row_tolerance.2.1 ["name", "phone"] "T" [" ", "000"] [["Bob", "555"]] []
      ⟨[], [], 1⟩ 0 (by decide) (by decide),
   import_row_tolerance.2.2 ["name", "phone"] [["Bob", "555"], [" ", "000"]] "T" ⟨[], [], 1⟩⟩

lemma importRows_customer_rows (now : String) (f1 f4 : Customer → String) :
    ∀ (cs : List Customer) (st : Store) (a : Nat),
      (∀ c ∈ cs, pyStrip c.name = c.name ∧ ¬ c.name = "" ∧
          (∀ p, c.phone = some p → pyStrip p = p ∧ ¬ p = "")) →
      ((importRows ["id", "name", "phone", "balance"] now
          (cs.map (fun c => [f1 c, c.name, c.phone.getD "", f4 c])) st a).1.customers.map custKey
        = st.customers.map custKey ++ cs.map custKey)
      ∧ (importRows ["id", "name", "phone", "balance"] now
          (cs.map (fun c => [f1 c, c.name, c.phone.getD "", f4 c])) st a).1.txns = st.txns
      ∧ (importRows ["id", "name", "phone", "balance"] now
          (cs.map (fun c => [f1 c, c.name, c.phone.getD "", f4 c])) st a).2 = a + cs.length := by
  intro cs
  induction cs with
  | nil =>
    intro st a h
    simp [importRows]
  | cons c cs ih =>
    intro st a h
    obtain ⟨hn, hne, hp⟩ := h c (List.mem_cons_self c cs)
    have hrest := fun x hx => h x (List.mem_cons_of_mem c hx)
    have hg1 : getv ["id", "name", "phone", "balance"]
        [f1 c, c.name, c.phone.getD "", f4 c] "name" = some c.name := rfl
    have hg2 : getv ["id", "name", "phone", "balance"]
        [f1 c, c.name, c.phone.getD "", f4 c] "phone" = some (c.phone.getD "") := rfl
    have hopt : strToOpt (pyStrip (c.phone.getD "")) = c.phone := by
      cases hph : c.phone with
      | none => rfl
      | some p =>
        obtain ⟨hp1, hp2⟩ := hp p hph
        simp [Option.getD, hp1, strToOpt, hp2]
    simp only [List.map_cons, importRows]
    rw [if_pos (by decide), hg1, hg2]
    simp only [Option.getD_some, hn, hopt]
    rw [if_neg hne]
    obtain ⟨ih1, ih2, ih3⟩ := ih (insertCustomer st c.name c.phone) (a + 1) hrest
    refine ⟨?_, ?_, ?_⟩
    · rw [ih1]
      simp [insertCustomer, custKey]
    · rw [ih2]
      rfl
    · rw [ih3]
      simp only [List.length_cons]
      omega

/-- C7: importing the customers-CSV produced by export (whose header contains
`name`, so every row is a customer row) appends customers whose (name, phone)
pairs are a permutation of the exported store's pairs, adds no transactions
(the balance column is never read), and reports one imported row per
customer.  The hypothesis is the write-path invariant: stored names are
stripped and non-empty, stored phones stripped and non-empty or absent. -/
theorem export_import_roundTrip (st st2 : Store) (now : String)
    (hinv : ∀ c ∈ st.customers, pyStrip c.name = c.name ∧ ¬ c.name = "" ∧
        (∀ p, c.phone = some p → pyStrip p = p ∧ ¬ p = "")) :
    ((import_csv (export_customers st).1 (export_customers st).2 now
        st2).1.customers.map custKey).Perm
      (st2.customers.map custKey ++ st.customers.map custKey)
    ∧ (import_csv (export_customers st).1 (export_customers st).2 now st2).1.txns
        = st2.txns
    ∧ (import_csv (export_customers st).1 (export_customers st).2 now st2).2
        = st.customers.length := by
  have hsortmem : ∀ c ∈ sortByIdDesc st.customers, pyStrip c.name = c.name ∧ ¬ c.name = "" ∧
      (∀ p, c.phone = some p → pyStrip p = p ∧ ¬ p = "") := by
    intro c hc
    exact hinv c ((List.perm_insertionSort _ st.customers).mem_iff.mp hc)
  obtain ⟨h1, h2, h3⟩ := importRows_customer_rows now (fun c => toString c.id)
    (fun c => fmt2 (compute_balance st.txns c.id)) (sortByIdDesc st.customers) st2 0 hsortmem
  have hperm : ((sortByIdDesc st.customers).map custKey).Perm (st.customers.map custKey) :=
    (List.perm_insertionSort _ st.customers).map custKey
  refine ⟨?_, h2, ?_⟩
  · rw [show ((import_csv (export_customers st).1 (export_customers st).2 now
        st2).1.customers.map custKey)
      = st2.customers.map custKey ++ (sortByIdDesc st.customers).map custKey from h1]
    exact List.Perm.append_left _ hperm
  · rw [show (import_csv (export_customers st).1 (export_customers st).2 now st2).2
      = 0 + (sortByIdDesc st.customers).length from h3]
    rw [zero_add]
    exact (List.perm_insertionSort _ st.customers).length_eq

/-- Witness for C7 at a one-customer store. -/
theorem export_import_roundTrip_witness :
    ((import_csv (export_customers ⟨[⟨1, "a", none⟩], [], 2⟩).1
        (export_customers ⟨[⟨1, "a", none⟩], [], 2⟩).2 "T"
        ⟨[], [], 1⟩).1.customers.map custKey).Perm
      (([] : List Customer).map custKey
        ++ ((⟨[⟨1, "a", none⟩], [], 2⟩ : Store)).customers.map custKey)
    ∧ (import_csv (export_customers ⟨[⟨1, "a", none⟩], [], 2⟩).1
        (export_customers ⟨[⟨1, "a", none⟩], [], 2⟩).2 "T" ⟨[], [], 1⟩).1.txns = []
    ∧ (import_csv (export_customers ⟨[⟨1, "a", none⟩], [], 2⟩).1
        (export_customers ⟨[⟨1, "a", none⟩], [], 2⟩).2 "T" ⟨[], [], 1⟩).2 = 1 :=
  export_import_roundTrip ⟨[⟨1, "a", none⟩], [], 2⟩ ⟨[], [], 1⟩ "T"
    (by
      intro c hc
      simp only [List.mem_singleton] at hc
      subst hc
      exact ⟨by decide, by decide, fun p hp => by simp at hp⟩)

/-- Case-insensitive (ASCII) matching of a pattern-free needle against the
start of a text. -/
def foldPref : List Char → List Char → Bool
  | [], _ => true
  | _ :: _, [] => false
  | a :: as, b :: bs => (likeFold a = likeFold b) && foldPref as bs

/-- Case-insensitive (ASCII) substring test on character lists. -/
def foldSubstr : List Char → List Char → Bool
  | q, [] => foldPref q []
  | q, c :: s => foldPref q (c :: s) || foldSubstr q s

/-- Case-sensitive matching of a needle against the start of a text. -/
def prefCheck : List Char → List Char → Bool
  | [], _ => true
  | _ :: _, [] => false
  | a :: as, b :: bs => (a = b) && prefCheck as bs

/-- Case-sensitive substring test on character lists. -/
def substrAt : List Char → List Char → Bool
  | q, [] => prefCheck q []
  | q, c :: s => prefCheck q (c :: s) || substrAt q s

/-- The spec's reading of the search filter: `q` occurs in `s` as a
case-sensitive substring. -/
def containsSub (q s : String) : Bool :=
  substrAt q.data s.data

/-- Case-insensitive (ASCII) substring occurrence, the relation the `LIKE`
query actually implements for wildcard-free search strings. -/
def ciContains (q s : String) : Bool :=
  foldSubstr q.data s.data

/-- The search predicate as amended: ASCII-case-insensitive substring match
against name or phone; a NULL phone never matches. -/
def ciMatches (q : String) (c : Customer) : Bool :=
  ciContains q c.name ||
    (match c.phone with
     | some p => ciContains q p
     | none => false)

lemma percent_all : ∀ ts : List Char, likeMatchAux ['%'] ts = true := by
  intro ts
  induction ts with
  | nil => simp [likeMatchAux]
  | cons c ts ih => simp [likeMatchAux, ih]

lemma percent_iff (ps : List Char) :
    ∀ ts, likeMatchAux ('%' :: ps) ts = true ↔ ∃ n, likeMatchAux ps (ts.drop n) = true := by
  intro ts
  induction ts with
  | nil =>
    constructor
    · intro h
      exact ⟨0, by simpa [likeMatchAux] using h⟩
    · rintro ⟨n, h⟩
      simp only [List.drop_nil] at h
      simpa [likeMatchAux] using h
  | cons c ts ih =>
    constructor
    · intro h
      simp only [likeMatchAux, if_true] at h
      rcases Bool.or_eq_true_iff.mp h with h | h
      · exact ⟨0, h⟩
      · obtain ⟨n, hn⟩ := ih.mp h
        exact ⟨n + 1, hn⟩
    · rintro ⟨n, h⟩
      simp only [likeMatchAux, if_true]
      apply Bool.or_eq_true_iff.mpr
      cases n with
      | zero => exact Or.inl h
      | succ n => exact Or.inr (ih.mpr ⟨n, h⟩)

lemma plain_match (q : List Char) (hq : ∀ c ∈ q, ¬ c = '%' ∧ ¬ c = '_') :
    ∀ ts, likeMatchAux (q ++ ['%']) ts = foldPref q ts := by
  induction q with
  | nil =>
    intro ts
    simp [foldPref, percent_all]
  | cons a q ih =>
    have ha := hq a (List.mem_cons_self a q)
    have hrest := fun c hc => hq c (List.mem_cons_of_mem a hc)
    intro ts
    cases ts with
    | nil => simp [likeMatchAux, foldPref, ha.1]
    | cons c ts' => simp [likeMatchAux, foldPref, ha.1, ha.2, ih hrest ts']

lemma foldSubstr_iff (q : List Char) :
    ∀ ts, foldSubstr q ts = true ↔ ∃ n, foldPref q (ts.drop n) = true := by
  intro ts
  induction ts with
  | nil =>
    constructor
    · intro h
      exact ⟨0, h⟩
    · rintro ⟨n, h⟩
      simp only [List.drop_nil] at h
      exact h
  | cons c ts ih =>
    constructor
    · intro h
      rcases Bool.or_eq_true_iff.mp h with h | h
      · exact ⟨0, h⟩
      · obtain ⟨n, hn⟩ := ih.mp h
        exact ⟨n + 1, hn⟩
    · rintro ⟨n, h⟩
      apply Bool.or_eq_true_iff.mpr
      cases n with
      | zero => exact Or.inl h
      | succ n => exact Or.inr (ih.mpr ⟨n, h⟩)

lemma likeMatch_eq_ciContains (q s : String)
    (hq : ∀ c ∈ q.data, ¬ c = '%' ∧ ¬ c = '_') :
    likeMatch ("%" ++ q ++ "%") s = ciContains q s := by
  have hd : ("%" ++ q ++ "%").data = '%' :: (q.data ++ ['%']) := by
    simp [String.data_append]
  unfold likeMatch ciContains
  rw [hd]
  have hiff : likeMatchAux ('%' :: (q.data ++ ['%'])) s.data = true
      ↔ foldSubstr q.data s.data = true := by
    rw [percent_iff]
    simp only [plain_match q.data hq]
    exact (foldSubstr_iff q.data s.data).symm
  cases ha : likeMatchAux ('%' :: (q.data ++ ['%'])) s.data <;>
    cases hb : foldSubstr q.data s.data <;> simp_all

/-- Counterexample to C4: the search is not a case-sensitive substring
filter.  Searching `bob` returns the customer named `Bob` although `bob` is
not a case-sensitive substring of `Bob` (SQLite `LIKE` folds ASCII case),
and searching `a%b` returns the customer named `aXb` although `a%b` is not a
substring of `aXb` (`%` is a `LIKE` wildcard). -/
theorem index_caseSensitive_cex :
    index ⟨[⟨1, "Bob", none⟩], [], 2⟩ "bob" = [⟨1, "Bob", none⟩]
    ∧ containsSub "bob" "Bob" = false
    ∧ index ⟨[⟨1, "aXb", none⟩], [], 2⟩ "a%b" = [⟨1, "aXb", none⟩]
    ∧ containsSub "a%b" "aXb" = false := by
  have hm1 : matchesQuery "bob" ⟨1, "Bob", none⟩ = true := by
    simp [matchesQuery, likeMatch, likeMatchAux, likeFold]
  have hm2 : matchesQuery "a%b" ⟨1, "aXb", none⟩ = true := by
    simp [matchesQuery, likeMatch, likeMatchAux, likeFold]
  have hp1 : pyStrip "bob" = "bob" := by decide
  have hp2 : pyStrip "a%b" = "a%b" := by decide
  refine ⟨?_, by decide, ?_, by decide⟩
  · simp only [index, hp1]
    rw [if_neg (by decide)]
    simp [hm1, sortByIdDesc, List.insertionSort]
  · simp only [index, hp2]
    rw [if_neg (by decide)]
    simp [hm2, sortByIdDesc, List.insertionSort]

/-- C4 as amended: with no (or blank) search string the listing returns all
customers ordered by id descending; a non-empty already-stripped search
string free of the `LIKE` wildcards `%` and `_` returns exactly the
customers whose name or phone contains it as an ASCII-case-insensitive
substring, ordered by id descending. -/
theorem index_like_spec (st : Store) (q : String) :
    (pyStrip q = q → ¬ q = "" → (∀ c ∈ q.data, ¬ c = '%' ∧ ¬ c = '_') →
      index st q = sortByIdDesc (st.customers.filter (fun c => ciMatches q c)))
    ∧ index st "" = sortByIdDesc st.customers := by
  constructor
  · intro h1 h2 h3
    simp only [index, h1]
    rw [if_neg h2]
    congr 1
    apply List.filter_congr
    intro c hc
    simp only [matchesQuery, ciMatches, likeMatch_eq_ciContains _ c.name h3]
    cases hph : c.phone with
    | none => rfl
    | some p =>
      dsimp only
      rw [likeMatch_eq_ciContains _ p h3]
  · have h0 : pyStrip "" = "" := rfl
    simp only [index, h0]
    simp

/-- Witness for the amended C4: searching `ob` in a store holding `Bob`. -/
theorem index_like_spec_witness :
    index ⟨[⟨1, "Bob", none⟩], [], 2⟩ "ob"
      = sortByIdDesc (((⟨[⟨1, "Bob", none⟩], [], 2⟩ : Store)).customers.filter
          (fun c => ciMatches "ob" c)) :=
  (index_like_spec ⟨[⟨1, "Bob", none⟩], [], 2⟩ "ob").1 (by decide) (by decide) (by decide)

end CustomerLedger
